import Mathlib

/-!
Verification of the historical/current BTC rate CLI (`src/main.py`) against its
natural-language specification.

The program is shallowly embedded: Python floats are modelled as rationals
(`ℚ`), the JSON body produced by `json.loads` is the inductive `Json` below,
the network is an oracle (`Except String HttpResp`: an `error` models an
exception raised by `conn.request`/`getresponse`/`read`, an `ok` the received
response), and printed output is returned as an explicit list of lines.
Every definition follows the corresponding place of `src/main.py`, noted in
its doc comment.
-/

namespace BtcCli

/-- A character for a single decimal digit `d` (`0 ≤ d ≤ 9`), i.e. the
character Python produces for that digit. -/
def digitChar (d : Nat) : Char := Char.ofNat (48 + d)

/-- Value of a decimal digit string, most significant digit first: the number
Python's `int`/`float` parsing assigns to a run of digit characters. -/
def digitsVal (cs : List Char) : Nat := cs.foldl (fun a c => 10 * a + (c.toNat - 48)) 0

/-- Fuel-driven production of the decimal digits of `n` (most significant
first); empty for `n = 0`.  The fuel is only a termination device: `f ≥ 1 + n`
always suffices. -/
def natStrAux : Nat → Nat → List Char
  | 0, _ => []
  | f + 1, n => if n = 0 then [] else natStrAux f (n / 10) ++ [digitChar (n % 10)]

/-- Decimal digit characters of `n`, as Python's `str`/`format` renders a
non-negative integer (so `natChars 0 = ['0']`). -/
def natChars (n : Nat) : List Char := if n = 0 then ['0'] else natStrAux (n + 1) n

/-- Decimal string of a natural number (Python `str(n)` for `n ≥ 0`). -/
def natStr (n : Nat) : String := ⟨natChars n⟩

/-- Round-half-even of a rational to an integer: the rounding Python's fixed
precision float formatting (`f"{v:.8f}"`, `f"{v:,.2f}"`) applies to the exact
value being formatted. -/
def rhe (q : ℚ) : ℤ :=
  let f := ⌊q⌋
  let r := q - f
  if r < 1 / 2 then f
  else if 1 / 2 < r then f + 1
  else if Even f then f else f + 1

/-- JSON values as produced by Python's `json.loads` (object keys are assumed
distinct, as `json.loads` keeps a single binding per key). -/
inductive Json where
  | null
  | bool (b : Bool)
  | num (q : ℚ)
  | str (s : String)
  | arr (xs : List Json)
  | obj (fields : List (String × Json))

instance : Inhabited Json := ⟨.null⟩

/-- Python whitespace stripping (`str.strip`) on a character list. -/
def pyStrip (cs : List Char) : List Char :=
  ((cs.dropWhile (·.isWhitespace)).reverse.dropWhile (·.isWhitespace)).reverse

/-- Exponent part of Python `float(str)` parsing: an optional sign followed by
at least one digit, consuming the whole remaining input. -/
def parseExp (m : ℚ) (cs : List Char) : Option ℚ :=
  let (eneg, cs1) : Bool × List Char :=
    match cs with
    | '-' :: r => (true, r)
    | '+' :: r => (false, r)
    | r => (false, r)
  let ed := cs1.takeWhile (·.isDigit)
  let rest := cs1.dropWhile (·.isDigit)
  if ed.isEmpty ∨ rest ≠ [] then none
  else some (if eneg then m / 10 ^ digitsVal ed else m * 10 ^ digitsVal ed)

/-- Mantissa-and-exponent core of Python `float(str)` parsing: optional sign,
digits around an optional point (at least one digit), optional exponent.
`inf`/`nan`/underscore forms are outside the rational model and are omitted;
no claim evaluates the parser on them. -/
def parseFloatChars (cs0 : List Char) : Option ℚ :=
  let (neg, cs1) : Bool × List Char :=
    match cs0 with
    | '-' :: r => (true, r)
    | '+' :: r => (false, r)
    | r => (false, r)
  let ip := cs1.takeWhile (·.isDigit)
  let cs2 := cs1.dropWhile (·.isDigit)
  let (fp, cs3) : List Char × List Char :=
    match cs2 with
    | '.' :: r => (r.takeWhile (·.isDigit), r.dropWhile (·.isDigit))
    | r => ([], r)
  if ip.isEmpty ∧ fp.isEmpty then none
  else
    let mant : ℚ := (digitsVal ip : ℚ) + (digitsVal fp : ℚ) / 10 ^ fp.length
    let signed := if neg then -mant else mant
    match cs3 with
    | [] => some signed
    | 'e' :: r => parseExp signed r
    | 'E' :: r => parseExp signed r
    | _ => none

/-- Python `float(s)` for a string argument: strip whitespace, then parse. -/
def parseFloatStr (s : String) : Option ℚ := parseFloatChars (pyStrip s.data)

/-- Python `float(x)` on a JSON-decoded value: numbers pass through, booleans
coerce, strings are parsed, everything else raises `TypeError`
(modelled as `error`). -/
def pyFloat : Json → Except String ℚ
  | .num q => .ok q
  | .bool b => .ok (if b then 1 else 0)
  | .str s =>
    match parseFloatStr s with
    | some q => .ok q
    | none => .error ("could not convert string to float: '" ++ s ++ "'")
  | _ => .error "float() argument must be a string or a real number"

/-- Fuel-driven decimal expansion of a fraction `0 ≤ r < 1`, stopping at the
first exact digit run (at most `f` digits). -/
def fracDigitsGo : Nat → ℚ → List Char
  | 0, _ => []
  | f + 1, r =>
    if r = 0 then []
    else
      let r10 := r * 10
      digitChar (⌊r10⌋).toNat :: fracDigitsGo f (r10 - ⌊r10⌋)

/-- Python `str`/`repr` of a float, restricted to the modelled rationals:
sign, integer digits, a point, and the fractional digits (`".0"` when the
value is integral).  Scientific notation for extreme magnitudes and the
17-significant-digit shortest-roundtrip behaviour of binary doubles are not
modelled; no claim depends on them. -/
def pyRepr (q : ℚ) : String :=
  let sign := if q < 0 then "-" else ""
  let n := (⌊|q|⌋).toNat
  let ds := fracDigitsGo 30 (|q| - ⌊|q|⌋)
  sign ++ natStr n ++ "." ++ (if ds.isEmpty then "0" else ⟨ds⟩)

/-- Python `k in j` for a JSON-decoded value `j` (`src/main.py:133,139`):
key membership on dicts, element membership on lists, substring test on
strings, `TypeError` on the remaining types. -/
def jsonHasKey : Json → String → Except String Bool
  | .obj fs, k => .ok (fs.any (fun f => f.1 == k))
  | .arr xs, k =>
    .ok (xs.any (fun x => match x with | .str t => t == k | _ => false))
  | .str s, k => .ok (decide (1 < (s.splitOn k).length))
  | _, _ => .error "argument of type 'float' is not iterable"

/-- Python `j[k]` subscripting for a JSON-decoded value (`src/main.py:137,143,144`):
dict lookup (`KeyError` when absent), `TypeError` on every other type. -/
def jsonGetItem : Json → String → Except String Json
  | .obj fs, k =>
    match fs.lookup k with
    | some v => .ok v
    | none => .error ("KeyError: '" ++ k ++ "'")
  | _, _ => .error "string indices must be integers"

/-- Python `d.get(k, dflt)` (`src/main.py:160`); only ever reached with `d` a
dict, so other shapes just return the default. -/
def jsonDictGet (j : Json) (k : String) (dflt : Json) : Json :=
  match j with
  | .obj fs => (fs.lookup k).getD dflt
  | _ => dflt

/-- Fuel-driven Python `repr` of a JSON-decoded value, used by the f-string
diagnostics.  String escaping subtleties are not modelled; the fuel is a
termination device, and `pyReprJson` instantiates it so it never runs out. -/
def pyReprJsonGo : Nat → Json → String
  | 0, _ => ""
  | f + 1, j =>
    match j with
    | .null => "None"
    | .bool b => if b then "True" else "False"
    | .num q => pyRepr q
    | .str s => "'" ++ s ++ "'"
    | .arr xs => "[" ++ ", ".intercalate (xs.map (pyReprJsonGo f)) ++ "]"
    | .obj fs =>
      "\x7b" ++ ", ".intercalate
        (fs.map (fun kv => "'" ++ kv.1 ++ "': " ++ pyReprJsonGo f kv.2)) ++ "\x7d"

mutual

/-- Structural size of a JSON value, used only to instantiate the fuel of
`pyReprJsonGo` generously. -/
def jsonSize : Json → Nat
  | .null => 1
  | .bool _ => 1
  | .num _ => 1
  | .str _ => 1
  | .arr xs => 1 + jsonSizeList xs
  | .obj fs => 1 + jsonSizeFields fs

/-- Summed size of a JSON array. -/
def jsonSizeList : List Json → Nat
  | [] => 1
  | x :: xs => 1 + jsonSize x + jsonSizeList xs

/-- Summed size of a JSON object. -/
def jsonSizeFields : List (String × Json) → Nat
  | [] => 1
  | f :: fs => 1 + jsonSize f.2 + jsonSizeFields fs

end

/-- Size-instantiated entry point for `pyReprJsonGo` (the fuel dominates the
nesting depth, so the rendering never truncates). -/
def pyReprJson (j : Json) : String := pyReprJsonGo (jsonSize j) j

/-- Python `str` of a JSON-decoded value, as interpolated by an f-string
(`src/main.py:235,240`): a string interpolates as itself, everything else as
its `repr`. -/
def pyStrJson : Json → String
  | .str s => s
  | j => pyReprJson j

/-- Python `rates.keys()` display inside the missing-currency diagnostic
(`src/main.py:140`).  When `rates` is not a dict the attribute access itself
raises, which the enclosing `except` turns into a generic error line. -/
def missingRatesLine : Json → String
  | .obj fs =>
    "Error: Missing required currency rates. Available rates: dict_keys([" ++
      ", ".intercalate (fs.map (fun kv => "'" ++ kv.1 ++ "'")) ++ "])"
  | _ => "Error: 'str' object has no attribute 'keys'"

/-- The conversion direction (`src/main.py:81`, the `direction` literal). -/
inductive Direction where
  | to_btc
  | from_btc
deriving DecidableEq

/-- An HTTP response as the Fetcher observes it: status, headers, the raw
decoded body, and the result of `json.loads` on that body (`error` models a
`JSONDecodeError`). -/
structure HttpResp where
  status : Nat
  headers : List (String × String)
  rawBody : String
  body : Except String Json

/-- The quote-set dictionary returned by `get_exchange_rate`
(`src/main.py:156-161`). -/
structure Quote where
  rate : ℚ
  btc_price : ℚ
  currency_rate : ℚ
  date : Json

/-- Python `repr` of the header list printed in verbose mode. -/
def headersRepr (hs : List (String × String)) : String :=
  "[" ++ ", ".intercalate (hs.map (fun kv => "('" ++ kv.1 ++ "', '" ++ kv.2 ++ "')")) ++ "]"

/-- The three diagnostic lines printed when `verbose` is set
(`src/main.py:122-125`). -/
def verboseLines (response : HttpResp) : List String :=
  ["API Status Code: " ++ natStr response.status,
   "API Response Headers: " ++ headersRepr response.headers,
   "API Raw Response: " ++ response.rawBody]

/-- `urlencode` of the query parameters (`src/main.py:113,115`), with
percent-escaping not modelled (no claim depends on the endpoint string). -/
def urlencode (params : List (String × String)) : String :=
  "&".intercalate (params.map (fun kv => kv.1 ++ "=" ++ kv.2))

/-- Normalizer (`src/main.py:146-154`): the single directional conversion
factor computed from the two raw rates.  A zero `currency_rate` in the
division branch models Python's `ZeroDivisionError`, which the enclosing
`except` block catches. -/
def conversionRate (direction : Direction) (currency : String)
    (btc_rate currency_rate : ℚ) : Except String ℚ :=
  match direction with
  | .to_btc =>
    if currency ≠ "USD" then .ok (btc_rate * currency_rate) else .ok btc_rate
  | .from_btc =>
    if currency ≠ "USD" then
      if currency_rate = 0 then .error "float division by zero"
      else .ok (btc_rate / currency_rate)
    else .ok btc_rate

/-- Body of the `try` block of `get_exchange_rate` after the verbose prints
(`src/main.py:127-165`), for a response that was successfully received and
read: the status check, JSON-shape checks, rate extraction and the
Normalizer, each failure ending as `(none, one error line)` exactly as the
Python `return None` paths and the `except` handler do. -/
def fetchCore (response : HttpResp) (direction : Direction) (currency : String) :
    Option Quote × List String :=
  if response.status ≠ 200 then
    (none, ["Error: API returned status code " ++ natStr response.status])
  else
    match response.body with
    | .error e => (none, ["Error: " ++ e])
    | .ok data =>
      match jsonHasKey data "rates" with
      | .error e => (none, ["Error: " ++ e])
      | .ok hasRates =>
        if ¬hasRates then
          (none, ["Error: Unexpected API response format: " ++ pyReprJson data])
        else
          match jsonGetItem data "rates" with
          | .error e => (none, ["Error: " ++ e])
          | .ok rates =>
            match jsonHasKey rates "BTC" with
            | .error e => (none, ["Error: " ++ e])
            | .ok hasBTC =>
              if ¬hasBTC then (none, [missingRatesLine rates])
              else
                match jsonHasKey rates currency with
                | .error e => (none, ["Error: " ++ e])
                | .ok hasCur =>
                  if ¬hasCur then (none, [missingRatesLine rates])
                  else
                    match jsonGetItem rates "BTC" >>= pyFloat with
                    | .error e => (none, ["Error: " ++ e])
                    | .ok btc_rate =>
                      match jsonGetItem rates currency >>= pyFloat with
                      | .error e => (none, ["Error: " ++ e])
                      | .ok currency_rate =>
                        match conversionRate direction currency btc_rate currency_rate with
                        | .error e => (none, ["Error: " ++ e])
                        | .ok conversion_rate =>
                          (some { rate := conversion_rate,
                                  btc_price := btc_rate,
                                  currency_rate := currency_rate,
                                  date := jsonDictGet data "date" (.str "current") }, [])

/-- The Fetcher, `get_exchange_rate` (`src/main.py:81-167`).  `api_key` models
`os.getenv("CURRENCY_FREAKS_API_KEY")`, `net` the network interaction of the
`try` block (an `error` is an exception raised while issuing or reading the
request).  The returned pair is the Python return value together with every
line the call printed, in order; the verbose diagnostics are printed first,
exactly as in the source. -/
def get_exchange_rate (api_key : Option String) (net : Except String HttpResp)
    (date_str : Option String) (direction : Direction) (currency : String)
    (verbose : Bool) : Option Quote × List String :=
  match api_key with
  | none => (none, ["Error: API key not found in .env file"])
  | some key =>
    let params := [("base", "USD"), ("symbols", currency ++ ",BTC"), ("apikey", key)]
    let _endpoint :=
      match date_str with
      | some d => "/v2.0/rates/historical?" ++ urlencode (params ++ [("date", d)])
      | none => "/v2.0/rates/latest?" ++ urlencode params
    match net with
    | .error e => (none, ["Error: " ++ e])
    | .ok response =>
      let vout := if verbose then verboseLines response else []
      let r := fetchCore response direction currency
      (r.1, vout ++ r.2)

/-- Fuel-driven grouping of a character list into runs of 3 from the left,
the Python `for i in range(0, len(remaining_dec), 3)` loop of
`src/main.py:186-187`.  The fuel (instantiated with the length) only forces
termination. -/
def chunksOf3Go : Nat → List Char → List (List Char)
  | _, [] => []
  | 0, _ :: _ => []
  | f + 1, c :: cs => (c :: cs).take 3 :: chunksOf3Go f ((c :: cs).drop 3)

/-- Runs of 3 characters from the left. -/
def chunksOf3 (l : List Char) : List (List Char) := chunksOf3Go l.length l

/-- The integer-part grouping loop `for i in range(len(int_part)-3, -3, -3)`
of `src/main.py:175-179`: runs of 3 digits from the right, a shorter leading
run first, realised here by reversing, chunking from the left and reversing
back. -/
def intGroups (l : List Char) : List (List Char) :=
  ((chunksOf3 l.reverse).map List.reverse).reverse

/-- Python `sep.join` on character-list groups. -/
def joinSep (sep : Char) : List (List Char) → List Char
  | [] => []
  | [g] => g
  | g :: h :: t => g ++ sep :: joinSep sep (h :: t)

/-- The exactly-8-digit decimal part of `f"{v:.8f}"` (`m` is the rounded
scaled value modulo `10^8`). -/
def pad8 (m : Nat) : List Char :=
  [digitChar (m / 10000000 % 10), digitChar (m / 1000000 % 10),
   digitChar (m / 100000 % 10), digitChar (m / 10000 % 10),
   digitChar (m / 1000 % 10), digitChar (m / 100 % 10),
   digitChar (m / 10 % 10), digitChar (m % 10)]

/-- `format_number` (`src/main.py:169-191`) applied to the rounded scaled
integer `m` = `rhe (value * 10^8)`: `f"{value:.8f}"` is the sign, the decimal
digits of `m.natAbs / 10^8`, a point, and the zero-padded 8 digits of
`m.natAbs % 10^8`; the two halves (`str_value.split('.')`) are then grouped
exactly as the Python loops do.  (CPython would also emit the sign for a
negative value rounding to zero; that corner is outside every claim, which
only concern non-negative values.) -/
def formatFixed8 (m : ℤ) : String :=
  let n := m.natAbs
  let sign : List Char := if m < 0 then ['-'] else []
  let int_part := sign ++ natChars (n / 100000000)
  let dec_part := pad8 (n % 100000000)
  let int_groups := intGroups int_part
  let grouped_int := joinSep ' ' (int_groups.filter (fun g => !g.isEmpty))
  let first_dec := dec_part.take 2
  let remaining_dec := dec_part.drop 2
  let dec_groups := chunksOf3 remaining_dec
  let grouped_dec :=
    if !dec_groups.isEmpty then first_dec ++ ' ' :: joinSep ' ' dec_groups
    else first_dec
  ⟨grouped_int ++ '.' :: grouped_dec⟩

/-- The Number Formatter `format_number` (`src/main.py:169-191`): custom
digit grouping of the 8-decimal fixed-point rendering of `value`. -/
def format_number (value : ℚ) : String := formatFixed8 (rhe (value * 10 ^ 8))

/-- Python `f"{v:,.2f}"` applied to the rounded scaled integer
`m = rhe (v * 100)`: sign, comma-grouped integer digits, and exactly two
decimal digits (`src/main.py:235,239,240`). -/
def fmtFixed2 (m : ℤ) : String :=
  let n := m.natAbs
  let sign : List Char := if m < 0 then ['-'] else []
  ⟨sign ++ joinSep ',' (intGroups (natChars (n / 100))) ++
    '.' :: [digitChar (n / 10 % 10), digitChar (n % 10)]⟩

/-- Python `f"{v:,.2f}"`: standard 2-decimal comma-grouped rendering. -/
def fmtComma2 (q : ℚ) : String := fmtFixed2 (rhe (q * 100))

/-- Removal of the space characters of a formatted string (the reparsing
step of the spec's formatter idempotence property). -/
def stripSpaces (s : String) : String := ⟨s.data.filter (fun c => c != ' ')⟩

/-- Split a character list at its first `'.'`. -/
def splitAtDot : List Char → Option (List Char × List Char)
  | [] => none
  | c :: cs =>
    if c = '.' then some ([], cs)
    else (splitAtDot cs).map (fun p => (c :: p.1, p.2))

/-- Reparse a fixed-point decimal string: the digits before the point as the
integer part plus the digits after it scaled down, the number a reader (or
Python `float`) assigns to the de-grouped rendering. -/
def parseFixed8 (s : String) : Option ℚ :=
  (splitAtDot s.data).map
    (fun p => (digitsVal p.1 : ℚ) + (digitsVal p.2 : ℚ) / 10 ^ p.2.length)

/-! Basic facts about the round-half-even function. -/

theorem rhe_intCast (n : ℤ) : rhe ((n : ℤ) : ℚ) = n := by
  simp [rhe]

theorem rhe_eq_of_intCast {q : ℚ} {n : ℤ} (h : q = (n : ℚ)) : rhe q = n := by
  rw [h, rhe_intCast]

theorem rhe_nonneg {q : ℚ} (h : 0 ≤ q) : 0 ≤ rhe q := by
  have hf : (0 : ℤ) ≤ ⌊q⌋ ∨ ⌊q⌋ = -1 ∨ ⌊q⌋ < -1 := by omega
  unfold rhe
  have h0 : (0 : ℤ) ≤ ⌊q⌋ := Int.le_floor.mpr (by exact_mod_cast h)
  dsimp only
  split
  · exact h0
  · split
    · omega
    · split <;> omega

/-- A Python `datetime.date`: year, month, day. -/
structure PyDate where
  year : Nat
  month : Nat
  day : Nat
deriving DecidableEq

/-- Lexicographic comparison of dates, Python's `date.__le__`. -/
def PyDate.le (a b : PyDate) : Bool :=
  a.year < b.year ||
    (a.year == b.year &&
      (a.month < b.month || (a.month == b.month && a.day ≤ b.day)))

/-- Gregorian leap-year rule, as `datetime` implements it. -/
def isLeapYear (y : Nat) : Bool := y % 4 == 0 && (y % 100 != 0 || y % 400 == 0)

/-- Days in a month, as `datetime` validates them. -/
def daysInMonth (y m : Nat) : Nat :=
  if m = 2 then (if isLeapYear y then 29 else 28)
  else if m = 4 ∨ m = 6 ∨ m = 9 ∨ m = 11 then 30
  else 31

/-- Split a character list on `'-'` (Python `_strptime`'s handling of the
literal dashes of the format). -/
def splitDash : List Char → List (List Char)
  | [] => [[]]
  | c :: cs =>
    match splitDash cs with
    | [] => [[]]
    | g :: gs => if c = '-' then [] :: g :: gs else (c :: g) :: gs

/-- `datetime.strptime(s, "%Y-%m-%d").date()` (`src/main.py:63`): `%Y`
matches exactly four digits, `%m` and `%d` one or two, the whole string must
be consumed, and the result must be a real calendar date with year at least
`datetime.MINYEAR = 1`; otherwise `ValueError` (modelled as `none`). -/
def strptimeYmd (s : String) : Option PyDate :=
  match splitDash s.data with
  | [ys, ms, ds] =>
    if ys.length = 4 ∧ ys.all (·.isDigit) ∧
        1 ≤ ms.length ∧ ms.length ≤ 2 ∧ ms.all (·.isDigit) ∧
        1 ≤ ds.length ∧ ds.length ≤ 2 ∧ ds.all (·.isDigit) then
      let y := digitsVal ys
      let m := digitsVal ms
      let d := digitsVal ds
      if 1 ≤ y ∧ 1 ≤ m ∧ m ≤ 12 ∧ 1 ≤ d ∧ d ≤ daysInMonth y m then
        some ⟨y, m, d⟩
      else none
    else none
  | _ => none

/-- `validate_date` (`src/main.py:60-67`): the string must parse with format
`%Y-%m-%d` and lie between the BTC availability date and `date.today()`
(passed here as the `today` parameter). -/
def validate_date (today : PyDate) (date_str : String) : Bool :=
  match strptimeYmd date_str, strptimeYmd "2013-01-07" with
  | some input_date, some earliest_date =>
    PyDate.le earliest_date input_date && PyDate.le input_date today
  | _, _ => false

/-- Python `str.lower` restricted to ASCII (all validated inputs are ASCII). -/
def pyToLower (s : String) : String := ⟨s.data.map Char.toLower⟩

/-- Python `str.upper` restricted to ASCII. -/
def pyToUpper (s : String) : String := ⟨s.data.map Char.toUpper⟩

/-- `validate_direction` (`src/main.py:69-71`). -/
def validate_direction (direction : String) : Bool :=
  pyToLower direction == "to" || pyToLower direction == "from"

/-- `validate_amount` (`src/main.py:73-79`): the string must parse as a
float. -/
def validate_amount (amount : String) : Bool := (parseFloatStr amount).isSome

/-- The `direction_map` dict of `src/main.py:219`; `none` models the
`KeyError` an unvalidated key would raise. -/
def direction_map (s : String) : Option Direction :=
  if s = "to" then some .to_btc
  else if s = "from" then some .from_btc
  else none

/-- The `get_input` retry loop (`src/main.py:12-58`) seen through its
validator: the first candidate input accepted by the validator; `none` when
the user never supplies a valid input, in which case the loop never returns
and the program never proceeds. -/
def getInputLoop (validator : String → Bool) (inputs : List String) : Option String :=
  inputs.find? validator

/-- Historical or current mode, the `h`/`c` answer of `src/main.py:199-201`. -/
inductive RateType where
  | historical
  | current
deriving DecidableEq

/-- The arguments of one `get_exchange_rate` call made by `main`. -/
structure FetchCall where
  date_str : Option String
  direction : Direction
  currency : String
  verbose : Bool
deriving DecidableEq

/-- What one run of `main` did: the Fetcher calls in order, the lines printed
by those calls, the lines of the final `if result:` block
(`src/main.py:229-240`), and an uncaught exception if one escaped. -/
structure MainResult where
  calls : List FetchCall
  fetchOutput : List String
  finalLines : List String
  error : Option String

/-- Result of `main` when an input-validation loop never terminates: no
Fetcher call is ever made. -/
def MainResult.stuck : MainResult := ⟨[], [], [], none⟩

/-- The converted-value line of the `to` branch (`src/main.py:234`). -/
def toBtcLine (amount : ℚ) (currency : String) (converted : ℚ) : String :=
  "\n" ++ pyRepr amount ++ " " ++ currency ++ " = " ++ format_number converted ++ " BTC"

/-- The converted-value line of the `from` branch (`src/main.py:239`). -/
def fromBtcLine (amount : ℚ) (currency : String) (converted : ℚ) : String :=
  "\n" ++ format_number amount ++ " BTC = " ++ fmtComma2 converted ++ " " ++ currency

/-- The value whose 2-decimal rendering the rate-summary line interpolates
(`1/result['btc_price']`, `src/main.py:235,240`). -/
def statedBtcPrice (r : Quote) : ℚ := 1 / r.btc_price

/-- The rate-summary line (`src/main.py:235,240`, identical in both
branches). -/
def rateSummaryLine (r : Quote) : String :=
  "Rate used: 1 BTC = " ++ fmtComma2 (statedBtcPrice r) ++ " USD (from " ++
    pyStrJson r.date ++ ")"

/-- The final `if result:` block of `main` (`src/main.py:229-240`) for a
successful primary fetch: the printed lines and the uncaught
`ZeroDivisionError` raised by `1/result['btc_price']` when the quoted BTC
rate is zero (the first line is already printed when the second raises). -/
def mainFinalBlock (dirStr : String) (currency : String) (amount : ℚ) (r : Quote) :
    List String × Option String :=
  if pyToLower dirStr = "to" then
    let l1 := toBtcLine amount currency (amount * r.rate)
    if r.btc_price = 0 then ([l1], some "ZeroDivisionError: float division by zero")
    else ([l1, rateSummaryLine r], none)
  else
    let l1 := fromBtcLine amount currency (amount * r.rate)
    if r.btc_price = 0 then ([l1], some "ZeroDivisionError: float division by zero")
    else ([l1, rateSummaryLine r], none)

/-- `main` after input collection (`src/main.py:219-240`): the secondary
current-rate fetch in historical mode, the primary fetch, and the final
display block.  `net` is the network oracle, giving the response to the
request issued for each `date` parameter (the two requests of a historical
run differ exactly in that parameter). -/
def mainCore (api_key : Option String) (net : Option String → Except String HttpResp)
    (verbose : Bool) (rate_type : RateType) (date_str : Option String)
    (dirStr : String) (currency : String) (amount : ℚ) : MainResult :=
  match direction_map (pyToLower dirStr) with
  | none => ⟨[], [], [], some "KeyError"⟩
  | some direction =>
    let secondary : List FetchCall × List String :=
      if rate_type = RateType.historical then
        ([⟨none, direction, currency, verbose⟩],
         (get_exchange_rate api_key (net none) none direction currency verbose).2)
      else ([], [])
    let primary := get_exchange_rate api_key (net date_str) date_str direction currency verbose
    let calls := secondary.1 ++ [⟨date_str, direction, currency, verbose⟩]
    let fetchOut := secondary.2 ++ primary.2
    match primary.1 with
    | none => ⟨calls, fetchOut, [], none⟩
    | some r =>
      let fin := mainFinalBlock dirStr currency amount r
      ⟨calls, fetchOut, fin.1, fin.2⟩

/-- `main` (`src/main.py:192-240`): argument parsing reduced to the verbose
flag, each interactive prompt modelled by `getInputLoop` over the stream of
candidate answers the user types for it, then `mainCore`. -/
def mainWithInputs (api_key : Option String) (net : Option String → Except String HttpResp)
    (verbose : Bool) (today : PyDate)
    (rateInputs dateInputs dirInputs curInputs amtInputs : List String) : MainResult :=
  match getInputLoop (fun x => pyToLower x == "h" || pyToLower x == "c") rateInputs with
  | none => MainResult.stuck
  | some rt =>
    let rate_type := pyToLower rt
    let dateCollected : Option (Option String) :=
      if rate_type = "h" then (getInputLoop (validate_date today) dateInputs).map some
      else some none
    match dateCollected with
    | none => MainResult.stuck
    | some date_str =>
      match getInputLoop validate_direction dirInputs with
      | none => MainResult.stuck
      | some direction =>
        match getInputLoop (fun x => x.length == 3) curInputs with
        | none => MainResult.stuck
        | some curRaw =>
          let currency := pyToUpper curRaw
          match getInputLoop validate_amount amtInputs with
          | none => MainResult.stuck
          | some amtRaw =>
            match parseFloatStr amtRaw with
            | none => ⟨[], [], ["Invalid amount. Please enter a number."], none⟩
            | some amount =>
              mainCore api_key net verbose
                (if rate_type = "h" then .historical else .current)
                date_str direction currency amount

/-! Digit-character facts. -/

theorem digitChar_toNat {d : Nat} (h : d < 10) : (digitChar d).toNat = 48 + d := by
  interval_cases d <;> decide

theorem digitChar_isDigit {d : Nat} (h : d < 10) : (digitChar d).isDigit = true := by
  interval_cases d <;> decide

theorem digitChar_toNat_mod (k : Nat) : (digitChar (k % 10)).toNat = 48 + k % 10 :=
  digitChar_toNat (Nat.mod_lt _ (by norm_num))

theorem isDigit_bne_space {c : Char} (h : c.isDigit = true) : (c != ' ') = true := by
  simp only [bne_iff_ne, ne_eq]
  rintro rfl
  exact absurd h (by decide)

theorem isDigit_ne_dot {c : Char} (h : c.isDigit = true) : c ≠ '.' := by
  rintro rfl
  exact absurd h (by decide)

theorem digitChar_mod_bne_space (k : Nat) : (digitChar (k % 10) != ' ') = true :=
  isDigit_bne_space (digitChar_isDigit (Nat.mod_lt _ (by norm_num)))

/-! Correctness of the decimal digit rendering. -/

theorem digitsVal_append_singleton (xs : List Char) (c : Char) :
    digitsVal (xs ++ [c]) = 10 * digitsVal xs + (c.toNat - 48) := by
  simp [digitsVal, List.foldl_append]

theorem natStrAux_isDigit : ∀ f n, ∀ c ∈ natStrAux f n, c.isDigit = true := by
  intro f
  induction f with
  | zero => intro n c hc; simp [natStrAux] at hc
  | succ f ih =>
    intro n c hc
    rw [natStrAux] at hc
    split at hc
    · simp at hc
    · rw [List.mem_append] at hc
      rcases hc with hc | hc
      · exact ih _ _ hc
      · rw [List.mem_singleton] at hc
        subst hc
        exact digitChar_isDigit (Nat.mod_lt _ (by norm_num))

theorem natStrAux_val : ∀ f n, n < 10 ^ f → digitsVal (natStrAux f n) = n := by
  intro f
  induction f with
  | zero => intro n hn; interval_cases n; simp [natStrAux, digitsVal]
  | succ f ih =>
    intro n hn
    rw [natStrAux]
    split
    · simp [digitsVal]; omega
    · rw [digitsVal_append_singleton, digitChar_toNat_mod,
        ih (n / 10) (by rw [pow_succ] at hn; omega)]
      omega

theorem natChars_isDigit (n : Nat) : ∀ c ∈ natChars n, c.isDigit = true := by
  intro c hc
  rw [natChars] at hc
  split at hc
  · rw [List.mem_singleton] at hc; subst hc; decide
  · exact natStrAux_isDigit _ _ _ hc

theorem digitsVal_natChars (n : Nat) : digitsVal (natChars n) = n := by
  rw [natChars]
  split
  · subst n
    decide
  · exact natStrAux_val _ _ (lt_of_lt_of_le (Nat.lt_pow_self (by norm_num) n)
      (Nat.pow_le_pow_right (by norm_num) (Nat.le_succ n)))

theorem pad8_isDigit (m : Nat) : ∀ c ∈ pad8 m, c.isDigit = true := by
  intro c hc
  simp only [pad8, List.mem_cons, List.mem_singleton, List.not_mem_nil, or_false] at hc
  rcases hc with h | h | h | h | h | h | h | h <;>
    (subst h; exact digitChar_isDigit (Nat.mod_lt _ (by norm_num)))

theorem digitsVal_pad8 {m : Nat} (h : m < 100000000) : digitsVal (pad8 m) = m := by
  simp only [pad8, digitsVal, List.foldl, digitChar_toNat_mod]
  omega

theorem pad8_length (m : Nat) : (pad8 m).length = 8 := by
  simp [pad8]

/-! Regrouping the grouped output. -/

theorem chunksOf3Go_flatten :
    ∀ f (l : List Char), l.length ≤ f → (chunksOf3Go f l).flatten = l := by
  intro f
  induction f with
  | zero =>
    intro l hl
    rw [Nat.le_zero, List.length_eq_zero] at hl
    subst hl
    rfl
  | succ f ih =>
    intro l hl
    match l with
    | [] => rfl
    | c :: cs =>
      rw [chunksOf3Go, List.flatten_cons, ih ((c :: cs).drop 3)
        (by simp only [List.length_drop]; simp only [List.length_cons] at hl ⊢; omega)]
      exact List.take_append_drop 3 (c :: cs)

theorem chunksOf3_flatten (l : List Char) : (chunksOf3 l).flatten = l :=
  chunksOf3Go_flatten _ _ le_rfl

theorem intGroups_flatten (l : List Char) : (intGroups l).flatten = l := by
  rw [intGroups, ← List.reverse_flatten, chunksOf3_flatten, List.reverse_reverse]

theorem flatten_filter_nonempty (gs : List (List Char)) :
    (gs.filter (fun g => !g.isEmpty)).flatten = gs.flatten := by
  induction gs with
  | nil => rfl
  | cons g gs ih =>
    by_cases hg : g.isEmpty
    · rw [List.isEmpty_iff] at hg
      subst hg
      simpa using ih
    · rw [List.filter_cons_of_pos (by simp [hg]), List.flatten_cons, List.flatten_cons, ih]

theorem joinSep_space_filter (gs : List (List Char)) :
    (joinSep ' ' gs).filter (fun c => c != ' ') =
      gs.flatten.filter (fun c => c != ' ') := by
  induction gs with
  | nil => rfl
  | cons g gs ih =>
    match gs with
    | [] => simp [joinSep]
    | h :: t =>
      rw [joinSep, List.flatten_cons]
      simp only [List.filter_append, List.filter_cons]
      norm_num
      rw [ih]
      simp [List.filter_append]

theorem splitAtDot_append (xs ys : List Char) (h : '.' ∉ xs) :
    splitAtDot (xs ++ '.' :: ys) = some (xs, ys) := by
  induction xs with
  | nil => simp [splitAtDot]
  | cons c cs ih =>
    rw [List.mem_cons, not_or] at h
    rw [List.cons_append, splitAtDot, if_neg (fun hh => h.1 hh.symm), ih h.2]
    rfl

theorem filter_space_natChars (n : Nat) :
    (natChars n).filter (fun c => c != ' ') = natChars n :=
  List.filter_eq_self.mpr (fun c hc => isDigit_bne_space (natChars_isDigit n c hc))

/-- The decimal-side grouping of `formatFixed8` fully evaluated: the 2-digit
group, a space, two 3-digit groups with a space between. -/
theorem decSide_eval (M : Nat) :
    (if !(chunksOf3 ((pad8 M).drop 2)).isEmpty then
        (pad8 M).take 2 ++ ' ' :: joinSep ' ' (chunksOf3 ((pad8 M).drop 2))
      else (pad8 M).take 2) =
    [digitChar (M / 10000000 % 10), digitChar (M / 1000000 % 10), ' ',
     digitChar (M / 100000 % 10), digitChar (M / 10000 % 10), digitChar (M / 1000 % 10), ' ',
     digitChar (M / 100 % 10), digitChar (M / 10 % 10), digitChar (M % 10)] := rfl

theorem decSide_filter (M : Nat) :
    ([digitChar (M / 10000000 % 10), digitChar (M / 1000000 % 10), ' ',
      digitChar (M / 100000 % 10), digitChar (M / 10000 % 10), digitChar (M / 1000 % 10), ' ',
      digitChar (M / 100 % 10), digitChar (M / 10 % 10),
      digitChar (M % 10)].filter (fun c => c != ' ')) = pad8 M := by
  simp only [List.filter, digitChar_mod_bne_space]
  norm_num [pad8]

/-- Stripping the spaces of `formatFixed8 m` (for `m ≥ 0`) recovers the plain
8-decimal fixed-point string: integer digits, point, padded decimal digits. -/
theorem stripSpaces_formatFixed8 (m : ℤ) (hm : 0 ≤ m) :
    (stripSpaces (formatFixed8 m)).data =
      natChars (m.natAbs / 100000000) ++ '.' :: pad8 (m.natAbs % 100000000) := by
  have hsign : ¬m < 0 := not_lt.mpr hm
  simp only [formatFixed8, stripSpaces, if_neg hsign, List.nil_append]
  rw [decSide_eval, List.filter_append]
  rw [joinSep_space_filter, flatten_filter_nonempty, intGroups_flatten, filter_space_natChars]
  congr 1
  rw [List.filter_cons_of_pos (by decide)]
  rw [decSide_filter]

theorem dropWhile_append_of_all {p : Char → Bool} (l1 l2 : List Char)
    (h : ∀ c ∈ l1, p c = true) : (l1 ++ l2).dropWhile p = l2.dropWhile p := by
  induction l1 with
  | nil => rfl
  | cons c cs ih =>
    rw [List.cons_append, List.dropWhile_cons_of_pos (h c (by simp))]
    exact ih (fun x hx => h x (by simp [hx]))

theorem natAbs_cast_rat {m : ℤ} (hm : 0 ≤ m) : ((m.natAbs : ℕ) : ℚ) = (m : ℚ) := by
  rw [Int.cast_natAbs, abs_of_nonneg hm]

/-- The exact rational value read back from the de-grouped rendering of a
non-negative rounded scaled integer. -/
theorem parseFixed8_stripSpaces_formatFixed8 (m : ℤ) (hm : 0 ≤ m) :
    parseFixed8 (stripSpaces (formatFixed8 m)) = some ((m : ℚ) / 10 ^ 8) := by
  rw [parseFixed8, stripSpaces_formatFixed8 m hm,
    splitAtDot_append _ _
      (fun hmem => isDigit_ne_dot (natChars_isDigit _ _ hmem) rfl)]
  rw [Option.map_some']
  congr 1
  rw [digitsVal_natChars, digitsVal_pad8 (Nat.mod_lt _ (by norm_num)), pad8_length]
  have h1 : (100000000 : ℕ) * (m.natAbs / 100000000) + m.natAbs % 100000000 = m.natAbs :=
    Nat.div_add_mod _ _
  have h2 : (100000000 : ℚ) * ((m.natAbs / 100000000 : ℕ) : ℚ) +
      ((m.natAbs % 100000000 : ℕ) : ℚ) = ((m.natAbs : ℕ) : ℚ) := by
    exact_mod_cast congrArg (fun k : ℕ => (k : ℚ)) h1
  rw [natAbs_cast_rat hm] at h2
  rw [eq_div_iff (by norm_num : (10 : ℚ) ^ 8 ≠ 0)]
  rw [add_mul, div_mul_cancel₀ _ (by norm_num : (10 : ℚ) ^ 8 ≠ 0)]
  linarith [h2]

/-- C4: the Number Formatter satisfies the literal cases
`format(123456.78901230) = "123 456.78 901 230"`, `format(0.5) = "0.50 000 000"`
and `format(7.1) = "7.10 000 000"`; and (grouping shape) the rendering always
carries exactly 8 decimal digits: after removing the grouping spaces, the
suffix starting at the decimal point is the point plus 8 digits. -/
theorem formatter_literal_cases :
    format_number (1234567890123 / 10 ^ 7) = "123 456.78 901 230" ∧
    format_number (1 / 2) = "0.50 000 000" ∧
    format_number (71 / 10) = "7.10 000 000" ∧
    ∀ v : ℚ, 0 ≤ v →
      ((stripSpaces (format_number v)).data.dropWhile (fun c => c != '.')).length = 9 := by
  refine ⟨?_, ?_, ?_, ?_⟩
  · rw [format_number, rhe_eq_of_intCast (n := 12345678901230) (by norm_num)]
    decide
  · rw [format_number, rhe_eq_of_intCast (n := 50000000) (by norm_num)]
    decide
  · rw [format_number, rhe_eq_of_intCast (n := 710000000) (by norm_num)]
    decide
  · intro v hv
    rw [format_number, stripSpaces_formatFixed8 _ (rhe_nonneg (mul_nonneg hv (by norm_num)))]
    rw [dropWhile_append_of_all _ _ (fun c hc => by
      simp only [bne_iff_ne, ne_eq]
      exact isDigit_ne_dot (natChars_isDigit _ _ hc))]
    rw [List.dropWhile_cons_of_neg (by decide)]
    simp [pad8_length]

/-- Witness for C4 at the concrete input `0.5`. -/
theorem formatter_literal_cases_witness :
    ((stripSpaces (format_number (1 / 2))).data.dropWhile (fun c => c != '.')).length = 9 :=
  formatter_literal_cases.2.2.2 (1 / 2) (by norm_num)

/-- C5: for every non-negative rational `v`, stripping the spaces of
`format_number v` and reading the digits back (keeping the point) yields
exactly `v` rounded half-even to 8 decimal places — the grouped string is
the 8-decimal fixed-point rendering of `v` with spaces inserted, losing no
digits. -/
theorem formatter_roundtrip (v : ℚ) (h : 0 ≤ v) :
    parseFixed8 (stripSpaces (format_number v)) =
      some ((rhe (v * 10 ^ 8) : ℚ) / 10 ^ 8) := by
  rw [format_number]
  exact parseFixed8_stripSpaces_formatFixed8 _ (rhe_nonneg (mul_nonneg h (by norm_num)))

/-- Witness for C5 at the concrete input `0.5`. -/
theorem formatter_roundtrip_witness :
    parseFixed8 (stripSpaces (format_number (1 / 2))) =
      some ((rhe ((1 / 2 : ℚ) * 10 ^ 8) : ℚ) / 10 ^ 8) :=
  formatter_roundtrip (1 / 2) (by norm_num)

/-- C1: the Normalizer's factor is `btc_rate` for `ToBTC` on USD and
`btc_rate * currency_rate` otherwise; `btc_rate` for `FromBTC` on USD and
`btc_rate / currency_rate` otherwise; in particular `50000, 0.9` give
`45000` for `ToBTC` and `50000 / 0.9` for `FromBTC`. -/
theorem normalizer_directionality (b c : ℚ) (cur : String) :
    conversionRate .to_btc cur b c = .ok (if cur = "USD" then b else b * c) ∧
    (cur = "USD" → conversionRate .from_btc cur b c = .ok b) ∧
    (cur ≠ "USD" → c ≠ 0 → conversionRate .from_btc cur b c = .ok (b / c)) ∧
    conversionRate .to_btc "EUR" 50000 (9 / 10) = .ok 45000 ∧
    conversionRate .from_btc "EUR" 50000 (9 / 10) = .ok (50000 / (9 / 10)) := by
  refine ⟨?_, ?_, ?_, ?_, ?_⟩
  · by_cases h : cur = "USD" <;> simp [conversionRate, h]
  · intro h
    simp [conversionRate, h]
  · intro h hc
    simp [conversionRate, h, hc]
  · simp only [conversionRate]
    rw [if_pos (by decide)]
    norm_num
  · simp only [conversionRate]
    rw [if_pos (by decide), if_neg (by norm_num : ¬(9 / 10 : ℚ) = 0)]

/-- Witness for C1: the `FromBTC` division branch at a concrete non-USD
input. -/
theorem normalizer_directionality_witness :
    conversionRate .from_btc "EUR" 50000 (9 / 10) = .ok (50000 / (9 / 10)) :=
  (normalizer_directionality 50000 (9 / 10) "EUR").2.2.1 (by decide) (by norm_num)

/-- C8: the verbose flag never influences the Fetcher's returned value —
for identical calls differing only in `verbose`, the returned quote set (or
failure) is equal, the verbose run only printing the raw status, headers and
body first. -/
theorem verbose_diagnostic_only (key : Option String) (net : Except String HttpResp)
    (ds : Option String) (dir : Direction) (cur : String) :
    (get_exchange_rate key net ds dir cur true).1 =
      (get_exchange_rate key net ds dir cur false).1 ∧
    (get_exchange_rate key net ds dir cur true).2 =
      (match key, net with
       | some _, .ok resp => verboseLines resp
       | _, _ => []) ++ (get_exchange_rate key net ds dir cur false).2 := by
  rcases key with _ | k
  · simp [get_exchange_rate]
  · rcases net with e | resp <;> simp [get_exchange_rate]

/-- C6: a non-200 response yields a reported failure (and the Fetcher, a
total function here, raises nothing); a 200 response whose rates object lacks
the target currency key likewise yields a reported failure and no partial
quote set. -/
theorem fetch_failure_reported (key : String) (resp : HttpResp) (ds : Option String)
    (dir : Direction) (cur : String) (vb : Bool) :
    (resp.status ≠ 200 →
      (get_exchange_rate (some key) (.ok resp) ds dir cur vb).1 = none ∧
      ("Error: API returned status code " ++ natStr resp.status) ∈
        (get_exchange_rate (some key) (.ok resp) ds dir cur vb).2) ∧
    (∀ data rates, resp.status = 200 → resp.body = .ok data →
      jsonHasKey data "rates" = .ok true → jsonGetItem data "rates" = .ok rates →
      jsonHasKey rates cur = .ok false →
      (get_exchange_rate (some key) (.ok resp) ds dir cur vb).1 = none ∧
      (get_exchange_rate (some key) (.ok resp) ds dir cur vb).2 ≠ []) := by
  constructor
  · intro hs
    rw [get_exchange_rate]
    simp [fetchCore, if_pos hs]
  · intro data rates hs hb hr hg hc
    rcases hbtc : jsonHasKey rates "BTC" with e | b
    · rw [get_exchange_rate]
      simp [fetchCore, hs, hb, hr, hg, hbtc]
    · cases b <;>
        (rw [get_exchange_rate]; simp [fetchCore, hs, hb, hr, hg, hbtc, hc])

/-- Witness for C6: a concrete HTTP 500 response, and a concrete 200 response
whose body is `{"rates": {"BTC": "50000"}}` queried for EUR. -/
theorem fetch_failure_reported_witness :
    ((get_exchange_rate (some "k")
        (.ok ⟨500, [], "Internal Server Error", .error "Expecting value"⟩)
        none .to_btc "EUR" false).1 = none ∧
      ("Error: API returned status code " ++ natStr 500) ∈
        (get_exchange_rate (some "k")
          (.ok ⟨500, [], "Internal Server Error", .error "Expecting value"⟩)
          none .to_btc "EUR" false).2) ∧
    ((get_exchange_rate (some "k")
        (.ok ⟨200, [], "", .ok (.obj [("rates", .obj [("BTC", .str "50000")])])⟩)
        none .to_btc "EUR" false).1 = none ∧
      (get_exchange_rate (some "k")
        (.ok ⟨200, [], "", .ok (.obj [("rates", .obj [("BTC", .str "50000")])])⟩)
        none .to_btc "EUR" false).2 ≠ []) :=
  ⟨(fetch_failure_reported "k" ⟨500, [], "Internal Server Error", .error "Expecting value"⟩
      none .to_btc "EUR" false).1 (by decide),
   (fetch_failure_reported "k" ⟨200, [], "", .ok (.obj [("rates", .obj [("BTC", .str "50000")])])⟩
      none .to_btc "EUR" false).2
     (.obj [("rates", .obj [("BTC", .str "50000")])]) (.obj [("BTC", .str "50000")])
     rfl rfl rfl rfl rfl⟩

/-- Counterexample to C3 as stated: a 200 response whose BTC rate is the
(parseable) negative number `-1` still yields a quote set, with
`btc_rate = -1 < 0` — positivity is not validated. -/
theorem negative_rate_yields_quote_cex :
    (get_exchange_rate (some "k")
        (.ok ⟨200, [], "", .ok (.obj [("rates", .obj [("BTC", .num (-1)), ("EUR", .num 1)])])⟩)
        none .to_btc "EUR" false).1.map Quote.btc_price = some (-1) ∧
    ((-1 : ℚ) < 0) := by
  constructor
  · rfl
  · norm_num

/-- C3 amended: if either rate value fails Python's `float` conversion, the
Fetcher reports a failure and returns no quote set (parseability is checked;
positivity and finiteness are not, see the counterexample). -/
theorem fetch_unparseable_rate_fails (key : String) (resp : HttpResp) (ds : Option String)
    (dir : Direction) (cur : String) (vb : Bool) (data rates : Json)
    (hb : resp.body = .ok data)
    (hr : jsonGetItem data "rates" = .ok rates)
    (hf : (jsonGetItem rates "BTC" >>= pyFloat).isOk = false ∨
          (jsonGetItem rates cur >>= pyFloat).isOk = false) :
    (get_exchange_rate (some key) (.ok resp) ds dir cur vb).1 = none ∧
    (get_exchange_rate (some key) (.ok resp) ds dir cur vb).2 ≠ [] := by
  by_cases hs : resp.status ≠ 200
  · rw [get_exchange_rate]
    simp [fetchCore, if_pos hs]
  · rcases hhk : jsonHasKey data "rates" with e | hasRates
    · rw [get_exchange_rate]
      simp [fetchCore, hs, hb, hhk]
    · cases hasRates
      · rw [get_exchange_rate]
        simp [fetchCore, hs, hb, hhk]
      · rcases hbtc : jsonHasKey rates "BTC" with e | hasBTC
        · rw [get_exchange_rate]
          simp [fetchCore, hs, hb, hhk, hr, hbtc]
        · cases hasBTC
          · rw [get_exchange_rate]
            simp [fetchCore, hs, hb, hhk, hr, hbtc]
          · rcases hck : jsonHasKey rates cur with e | hasCur
            · rw [get_exchange_rate]
              simp [fetchCore, hs, hb, hhk, hr, hbtc, hck]
            · cases hasCur
              · rw [get_exchange_rate]
                simp [fetchCore, hs, hb, hhk, hr, hbtc, hck]
              · rcases hbf : jsonGetItem rates "BTC" >>= pyFloat with e | bval
                · rw [get_exchange_rate]
                  simp [fetchCore, hs, hb, hhk, hr, hbtc, hck, hbf]
                · rcases hcf : jsonGetItem rates cur >>= pyFloat with e | cval
                  · rw [get_exchange_rate]
                    simp [fetchCore, hs, hb, hhk, hr, hbtc, hck, hbf, hcf]
                  · rw [hbf, hcf] at hf
                    simp [Except.isOk, Except.toBool] at hf

/-- Witness for C3 (amended) at a concrete unparseable rate value. -/
theorem fetch_unparseable_rate_fails_witness :
    (get_exchange_rate (some "k")
        (.ok ⟨200, [], "", .ok (.obj [("rates", .obj [("BTC", .str "oops"), ("EUR", .num 1)])])⟩)
        none .to_btc "EUR" false).1 = none ∧
    (get_exchange_rate (some "k")
        (.ok ⟨200, [], "", .ok (.obj [("rates", .obj [("BTC", .str "oops"), ("EUR", .num 1)])])⟩)
        none .to_btc "EUR" false).2 ≠ [] :=
  fetch_unparseable_rate_fails "k"
    ⟨200, [], "", .ok (.obj [("rates", .obj [("BTC", .str "oops"), ("EUR", .num 1)])])⟩
    none .to_btc "EUR" false
    (.obj [("rates", .obj [("BTC", .str "oops"), ("EUR", .num 1)])])
    (.obj [("BTC", .str "oops"), ("EUR", .num 1)])
    rfl rfl (.inl rfl)

/-- Counterexample to C2 as stated: for the quote set fetched from a response
with BTC rate `0.5`, the rate-summary line states `2.00` — the rendering of
`1 / btc_rate` — while `btc_rate` itself is `0.5` and renders as `"0.50"`,
so the stated price is not the quote set's `btc_rate`. -/
theorem rate_summary_price_cex :
    ((get_exchange_rate (some "k")
        (.ok ⟨200, [], "", .ok (.obj [("rates", .obj [("USD", .num 1), ("BTC", .num (1 / 2))])])⟩)
        none .to_btc "USD" false).1.map
          (fun r => (r.btc_price, rateSummaryLine r))) =
      some (1 / 2, "Rate used: 1 BTC = 2.00 USD (from current)") ∧
    fmtComma2 (1 / 2 : ℚ) = "0.50" ∧ ("0.50" : String) ≠ "2.00" := by
  refine ⟨?_, ?_, by decide⟩
  · rw [show (get_exchange_rate (some "k")
        (.ok ⟨200, [], "", .ok (.obj [("rates", .obj [("USD", .num 1), ("BTC", .num (1 / 2))])])⟩)
        none .to_btc "USD" false).1 =
          some ⟨1 / 2, 1 / 2, 1, .str "current"⟩ from rfl]
    rw [Option.map_some']
    rw [rateSummaryLine, statedBtcPrice]
    dsimp only
    rw [fmtComma2, rhe_eq_of_intCast (n := 200) (by norm_num)]
    rfl
  · rw [fmtComma2, rhe_eq_of_intCast (n := 50) (by norm_num)]
    rfl

/-- C2 amended: on every successful conversion — in either direction, since
`src/main.py:235` and `src/main.py:240` print the same summary — the second
final line is `rateSummaryLine r`, which states the BTC price in USD as the
2-decimal rendering of the reciprocal `1 / btc_rate` of the quote set's
`btc_rate` (not of `btc_rate` itself), together with the date label the
quote was sourced from. -/
theorem rate_summary_states_reciprocal (api : Option String)
    (net : Option String → Except String HttpResp) (vb : Bool) (rt : RateType)
    (ds : Option String) (dirStr cur : String) (amt : ℚ) (r : Quote) (dir : Direction)
    (hdir : direction_map (pyToLower dirStr) = some dir)
    (hp : (get_exchange_rate api (net ds) ds dir cur vb).1 = some r)
    (hz : r.btc_price ≠ 0) :
    (mainCore api net vb rt ds dirStr cur amt).finalLines =
      [if pyToLower dirStr = "to" then toBtcLine amt cur (amt * r.rate)
       else fromBtcLine amt cur (amt * r.rate),
       rateSummaryLine r] ∧
    rateSummaryLine r =
      "Rate used: 1 BTC = " ++ fmtComma2 (1 / r.btc_price) ++ " USD (from " ++
        pyStrJson r.date ++ ")" := by
  constructor
  · rw [mainCore, hdir]
    by_cases hto : pyToLower dirStr = "to" <;>
      cases rt <;> simp [hp, mainFinalBlock, hto, hz]
  · rw [rateSummaryLine, statedBtcPrice]

/-- Witness for C2 (amended) on a concrete successful historical run. -/
theorem rate_summary_states_reciprocal_witness :
    (mainCore (some "k")
        (fun _ => .ok ⟨200, [], "",
          .ok (.obj [("rates", .obj [("USD", .num 1), ("BTC", .num 2)])])⟩)
        false .historical (some "2021-01-01") "to" "USD" 1000).finalLines =
      [if pyToLower "to" = "to" then
        toBtcLine 1000 "USD" (1000 * Quote.rate ⟨2, 2, 1, .str "current"⟩)
       else fromBtcLine 1000 "USD" (1000 * Quote.rate ⟨2, 2, 1, .str "current"⟩),
       rateSummaryLine ⟨2, 2, 1, .str "current"⟩] ∧
    rateSummaryLine ⟨2, 2, 1, .str "current"⟩ =
      "Rate used: 1 BTC = " ++
        fmtComma2 (1 / Quote.btc_price ⟨2, 2, 1, .str "current"⟩) ++ " USD (from " ++
        pyStrJson (Json.str "current") ++ ")" :=
  rate_summary_states_reciprocal (some "k")
    (fun _ => .ok ⟨200, [], "",
      .ok (.obj [("rates", .obj [("USD", .num 1), ("BTC", .num 2)])])⟩)
    false .historical (some "2021-01-01") "to" "USD" 1000
    ⟨2, 2, 1, .str "current"⟩ .to_btc rfl rfl (by norm_num)

/-- C7: in historical mode the Orchestrator performs an additional,
independent current-rate fetch before the historical fetch (the two calls, in
order), and whatever the secondary fetch returns — including any failure —
the primary historical conversion still completes and prints its result. -/
theorem historical_dual_fetch (api : Option String)
    (net : Option String → Except String HttpResp) (vb : Bool) (d : String)
    (dirStr cur : String) (amt : ℚ) (dir : Direction) (r : Quote)
    (hdir : direction_map (pyToLower dirStr) = some dir)
    (hp : (get_exchange_rate api (net (some d)) (some d) dir cur vb).1 = some r) :
    (mainCore api net vb .historical (some d) dirStr cur amt).calls =
      [⟨none, dir, cur, vb⟩, ⟨some d, dir, cur, vb⟩] ∧
    (mainCore api net vb .historical (some d) dirStr cur amt).finalLines ≠ [] ∧
    (r.btc_price ≠ 0 →
      (mainCore api net vb .historical (some d) dirStr cur amt).error = none ∧
      (mainCore api net vb .historical (some d) dirStr cur amt).finalLines.length = 2) := by
  rw [mainCore, hdir]
  by_cases hto : pyToLower dirStr = "to" <;>
    by_cases hz : r.btc_price = 0 <;>
      simp [hp, mainFinalBlock, hto, hz]

/-- Witness for C7: the secondary (current-rate) fetch fails with a network
error while the primary historical fetch succeeds. -/
theorem historical_dual_fetch_witness :
    (mainCore (some "k")
        (fun ds => match ds with
          | none => .error "Connection refused"
          | some _ => .ok ⟨200, [], "",
              .ok (.obj [("rates", .obj [("USD", .num 1), ("BTC", .num 2)])])⟩)
        false .historical (some "2021-01-01") "to" "USD" 1000).calls =
      [⟨none, .to_btc, "USD", false⟩, ⟨some "2021-01-01", .to_btc, "USD", false⟩] ∧
    (mainCore (some "k")
        (fun ds => match ds with
          | none => .error "Connection refused"
          | some _ => .ok ⟨200, [], "",
              .ok (.obj [("rates", .obj [("USD", .num 1), ("BTC", .num 2)])])⟩)
        false .historical (some "2021-01-01") "to" "USD" 1000).finalLines ≠ [] ∧
    (Quote.btc_price ⟨2, 2, 1, .str "current"⟩ ≠ 0 →
      (mainCore (some "k")
        (fun ds => match ds with
          | none => .error "Connection refused"
          | some _ => .ok ⟨200, [], "",
              .ok (.obj [("rates", .obj [("USD", .num 1), ("BTC", .num 2)])])⟩)
        false .historical (some "2021-01-01") "to" "USD" 1000).error = none ∧
      (mainCore (some "k")
        (fun ds => match ds with
          | none => .error "Connection refused"
          | some _ => .ok ⟨200, [], "",
              .ok (.obj [("rates", .obj [("USD", .num 1), ("BTC", .num 2)])])⟩)
        false .historical (some "2021-01-01") "to" "USD" 1000).finalLines.length = 2) :=
  historical_dual_fetch (some "k")
    (fun ds => match ds with
      | none => .error "Connection refused"
      | some _ => .ok ⟨200, [], "",
          .ok (.obj [("rates", .obj [("USD", .num 1), ("BTC", .num 2)])])⟩)
    false "2021-01-01" "to" "USD" 1000 .to_btc ⟨2, 2, 1, .str "current"⟩ rfl rfl

/-- C10: two historical runs that differ only in the outcome of the secondary
current-rate fetch print identical converted-value and rate-summary lines
(and raise identically): the final output depends only on the primary quote
set, the amount, the currency and the direction. -/
theorem secondary_fetch_invisible (api : Option String)
    (n1 n2 : Option String → Except String HttpResp) (vb : Bool) (d : String)
    (dirStr cur : String) (amt : ℚ)
    (h : n1 (some d) = n2 (some d)) :
    (mainCore api n1 vb .historical (some d) dirStr cur amt).finalLines =
      (mainCore api n2 vb .historical (some d) dirStr cur amt).finalLines ∧
    (mainCore api n1 vb .historical (some d) dirStr cur amt).error =
      (mainCore api n2 vb .historical (some d) dirStr cur amt).error := by
  rw [mainCore, mainCore, h]
  cases hdm : direction_map (pyToLower dirStr) with
  | none => exact ⟨rfl, rfl⟩
  | some dir =>
    cases hpq : (get_exchange_rate api (n2 (some d)) (some d) dir cur vb).1 <;>
      simp [hpq]

/-- Witness for C10: the two oracles agree on the historical request but the
first one fails the secondary current-rate request. -/
theorem secondary_fetch_invisible_witness :
    (mainCore (some "k") (fun _ => .error "boom") false .historical
        (some "2021-01-01") "to" "USD" 1000).finalLines =
      (mainCore (some "k")
        (fun ds => match ds with
          | none => .ok ⟨200, [], "",
              .ok (.obj [("rates", .obj [("USD", .num 1), ("BTC", .num 2)])])⟩
          | some _ => .error "boom")
        false .historical (some "2021-01-01") "to" "USD" 1000).finalLines ∧
    (mainCore (some "k") (fun _ => .error "boom") false .historical
        (some "2021-01-01") "to" "USD" 1000).error =
      (mainCore (some "k")
        (fun ds => match ds with
          | none => .ok ⟨200, [], "",
              .ok (.obj [("rates", .obj [("USD", .num 1), ("BTC", .num 2)])])⟩
          | some _ => .error "boom")
        false .historical (some "2021-01-01") "to" "USD" 1000).error :=
  secondary_fetch_invisible (some "k") (fun _ => .error "boom")
    (fun ds => match ds with
      | none => .ok ⟨200, [], "",
          .ok (.obj [("rates", .obj [("USD", .num 1), ("BTC", .num 2)])])⟩
      | some _ => .error "boom")
    false "2021-01-01" "to" "USD" 1000 rfl

/-- Every Fetcher call of `mainCore` uses either no date (the secondary
current-rate fetch) or exactly the collected `date_str`. -/
theorem mainCore_calls_date (api : Option String)
    (net : Option String → Except String HttpResp) (vb : Bool) (rt : RateType)
    (ds : Option String) (dirStr cur : String) (amt : ℚ) (c : FetchCall)
    (hc : c ∈ (mainCore api net vb rt ds dirStr cur amt).calls) :
    c.date_str = none ∨ c.date_str = ds := by
  rw [mainCore] at hc
  cases hdm : direction_map (pyToLower dirStr) with
  | none => rw [hdm] at hc; simp at hc
  | some dir =>
    rw [hdm] at hc
    dsimp only at hc
    cases hpq : (get_exchange_rate api (net ds) ds dir cur vb).1 <;>
      rw [hpq] at hc <;>
        cases rt <;>
          simp only [reduceIte, if_pos, if_neg] at hc <;>
            simp at hc <;>
              rcases hc with rfl | rfl <;> simp

/-- C9: `validate_date` accepts a string exactly when it parses with
`strptime("%Y-%m-%d")` as a calendar date lying in `[2013-01-07, today]`;
and in every run of `main`, any Fetcher call carrying a date only carries
one that passed `validate_date` — malformed or out-of-range dates are
rejected by the input loop before any Fetcher call is attempted. -/
theorem date_validation_correct :
    (∀ today s, validate_date today s = true ↔
      ∃ d, strptimeYmd s = some d ∧
        PyDate.le ⟨2013, 1, 7⟩ d = true ∧ PyDate.le d today = true) ∧
    (∀ api net vb today rI dI dirI cI aI c,
      c ∈ (mainWithInputs api net vb today rI dI dirI cI aI).calls →
      ∀ ds, c.date_str = some ds → validate_date today ds = true) := by
  constructor
  · intro today s
    rw [validate_date,
      show strptimeYmd "2013-01-07" = some ⟨2013, 1, 7⟩ from by decide]
    cases h : strptimeYmd s with
    | none => simp
    | some d => simp [Bool.and_eq_true]
  · intro api net vb today rI dI dirI cI aI c hc ds hds
    rw [mainWithInputs] at hc
    split at hc
    next =>
      simp [MainResult.stuck] at hc
    next rt hrt =>
      split at hc
      next =>
        dsimp only at hc
        repeat' split at hc
        all_goals simp_all [MainResult.stuck]
      next dirRaw hdir =>
        split at hc
        next =>
          dsimp only at hc
          repeat' split at hc
          all_goals simp_all [MainResult.stuck]
        next curRaw hcur =>
          dsimp only at hc
          split at hc
          next =>
            simp [MainResult.stuck] at hc
          next date_str hdeq =>
            split at hc
            next => simp_all [MainResult.stuck]
            next amtRaw hamt =>
              split at hc
              next => simp_all [MainResult.stuck]
              next q hq =>
                rcases mainCore_calls_date _ _ _ _ _ _ _ _ _ hc with hnone | hdate
                · rw [hds] at hnone
                  exact absurd hnone (by simp)
                · rw [hds] at hdate
                  rw [← hdate] at hdeq
                  by_cases hmode : pyToLower rt = "h"
                  · rw [if_pos hmode] at hdeq
                    rcases Option.map_eq_some'.mp hdeq with ⟨dd, hfind, hdd⟩
                    obtain rfl : dd = ds := by injection hdd
                    have := List.find?_some hfind
                    simpa using this
                  · rw [if_neg hmode] at hdeq
                    exact absurd hdeq.symm (by simp)

/-- Witness for C9: a concrete historical run whose primary Fetcher call
carries the validated date `2021-01-01`. -/
theorem date_validation_correct_witness :
    validate_date ⟨2025, 1, 1⟩ "2021-01-01" = true :=
  date_validation_correct.2 (some "k") (fun _ => .error "down") false ⟨2025, 1, 1⟩
    ["h"] ["2021-01-01"] ["to"] ["usd"] ["5"]
    ⟨some "2021-01-01", .to_btc, "USD", false⟩
    (by decide) "2021-01-01" rfl

end BtcCli
